import Mathlib

/-!
Verification of the simplex-noise core (`src/core/src/simplex.rs`).

Shallow embedding conventions:
* `f64` values are modelled as exact rationals `ℚ` (every finite `f64` is a
  rational); arithmetic on them is exact.  Floating-point constants that the
  source imports are embedded as the exact dyadic rational value of the `f64`
  constant.
* Machine integers are `ℕ`/`ℤ`; the Rust numeric casts `as i64` / `as usize`
  applied to an `f64` truncate toward zero and saturate at the bounds of the
  target type, which is modelled explicitly.
* The process-wide mutable cache (`static mut PERMUTATION_TABLE`) is modelled
  by explicit state passing over a `StaticPermutationTable` record; the
  `std::sync::Once` guard is modelled by its single-threaded observable state,
  a completion flag.
* The fallible `Option::unwrap` is modelled by returning an `Option`, `none`
  standing for a panic.
-/

namespace Simplex

/-- Modelled from the spec: `PERMUTATION_TABLE_SIZE` lives in the crate's
`constants` module, which is not part of the sources; §8 of the spec fixes the
table size at 256. -/
def PERMUTATION_TABLE_SIZE : ℕ := 256

/-- Modelled from the spec: the 1-D gradient lookup table (`constants` module,
not in the sources); the spec describes it as "scalars ±1 style". -/
def GRADIENT_LUT_1D : List ℚ := [1, -1]

/-- Modelled from the spec: size of the 1-D gradient lookup table. -/
def GRADIENT_LUT_1D_SIZE : ℕ := 2

/-- Modelled from the spec: the 2-D gradient lookup table (`constants` module,
not in the sources); a small fixed table of 2-component gradient vectors. -/
def GRADIENT_LUT_2D : List (List ℚ) :=
  [[1, 1], [-1, 1], [1, -1], [-1, -1], [1, 0], [-1, 0], [0, 1], [0, -1]]

/-- Modelled from the spec: size of the 2-D gradient lookup table. -/
def GRADIENT_LUT_2D_SIZE : ℕ := 8

/-- Modelled from the spec: the 3-D gradient lookup table (`constants` module,
not in the sources); a small fixed table of 3-component gradient vectors. -/
def GRADIENT_LUT_3D : List (List ℚ) :=
  [[1, 1, 0], [-1, 1, 0], [1, -1, 0], [-1, -1, 0],
   [1, 0, 1], [-1, 0, 1], [1, 0, -1], [-1, 0, -1],
   [0, 1, 1], [0, -1, 1], [0, 1, -1], [0, -1, -1]]

/-- Modelled from the spec: size of the 3-D gradient lookup table. -/
def GRADIENT_LUT_3D_SIZE : ℕ := 12

/-- Modelled from the spec: the 3-D simplex-traversal lookup table
(`constants` module, not in the sources).  Each entry has six fields
`(i1, j1, k1, i2, j2, k2)`; the table is indexed by the 3-bit comparison code
`4*[x0>y0] + 2*[y0>z0] + [x0>z0]`, so it has eight rows, two of which
(codes 1 and 6) correspond to impossible orderings and hold dummy values. -/
def SIMPLEX_TRAVERSAL_LUT_3D : List (List ℕ) :=
  [[0, 0, 1, 0, 1, 1],
   [0, 0, 0, 0, 0, 0],
   [0, 1, 0, 0, 1, 1],
   [0, 1, 0, 1, 1, 0],
   [0, 0, 1, 1, 0, 1],
   [1, 0, 0, 1, 0, 1],
   [0, 0, 0, 0, 0, 0],
   [1, 0, 0, 1, 1, 0]]

/-- Modelled from the spec: the falloff radius-squared constant `R_SQUARED`
(`constants` module, not in the sources).  The 1-D boundary test in the source
compares against `1/√2`, i.e. radius² = 1/2. -/
def R_SQUARED : ℚ := 1 / 2

/-- Modelled from the spec: the 2-D skew factor, the `f64` value of
`(√3 − 1) / 2`, as an exact dyadic rational. -/
def SKEW_FACTOR_2D : ℚ := 1648431872091733 / 4503599627370496

/-- Modelled from the spec: the 2-D unskew factor, the `f64` value of
`(3 − √3) / 6`, as an exact dyadic rational. -/
def UNSKEW_FACTOR_2D : ℚ := 951722585092921 / 4503599627370496

/-- Modelled from the spec: the 3-D skew factor, the `f64` value of `1/3`. -/
def SKEW_FACTOR_3D : ℚ := 6004799503160661 / 18014398509481984

/-- Modelled from the spec: the 3-D unskew factor, the `f64` value of `1/6`. -/
def UNSKEW_FACTOR_3D : ℚ := 6004799503160661 / 36028797018963968

/-- Modelled from the spec: the per-dimension normalization constants
(`constants` module, not in the sources); fixed positive scale factors whose
exact values the spec does not give. -/
def NORMALIZATION_FACTOR_1D : ℚ := 1 / 4

/-- Modelled from the spec: the 2-D normalization constant. -/
def NORMALIZATION_FACTOR_2D : ℚ := 70

/-- Modelled from the spec: the 3-D normalization constant. -/
def NORMALIZATION_FACTOR_3D : ℚ := 32

/-- The exact value of the `f64` constant `std::f64::consts::FRAC_1_SQRT_2`
(the `f64` nearest `1/√2`, mantissa correctly rounded: `(2·6369051672525772+1)²
< 2¹⁰⁷ < (2·6369051672525773+1)²`), used by `contribution1d`. -/
def FRAC_1_SQRT_2 : ℚ := 6369051672525773 / 9007199254740992

/-- Truncation toward zero of a rational, the rounding used by Rust's
float-to-integer `as` casts. -/
def truncQ (x : ℚ) : ℤ := if 0 ≤ x then ⌊x⌋ else ⌈x⌉

/-- Embeds the Rust cast `x as i64` on an `f64` value: truncate toward zero,
saturating at the `i64` bounds. -/
def rustCastF64ToI64 (x : ℚ) : ℤ :=
  max (-(2 ^ 63)) (min (2 ^ 63 - 1) (truncQ x))

/-- Embeds the Rust cast `x as usize` on an `f64` value (64-bit target):
truncate toward zero, saturating at `0` and `usize::MAX`. -/
def rustCastF64ToUsize (x : ℚ) : ℕ :=
  (max 0 (min (2 ^ 64 - 1) (truncQ x))).toNat

/-- Embeds `fast_floor` (simplex.rs lines 114–117):
`let x_int = x as i64; x_int as f64 - (x < x_int as f64) as i32 as f64`.
The `i64`-to-`f64` conversion is modelled as exact. -/
def fast_floor (x : ℚ) : ℚ :=
  let x_int : ℤ := rustCastF64ToI64 x
  (x_int : ℚ) - (if x < (x_int : ℚ) then 1 else 0)

/-- Modelled from the spec: `build_permutation_table` lives in the crate's
`ptable` module, which is not part of the sources.  Per spec §6 it is a
deterministic pure function of `(seed, size, extended)`; with `extended = true`
the first `size` entries form a permutation of `[0, size)` and the sequence is
repeated to length `2 * size`.  The model realizes this with a seed-dependent
rotation, which satisfies exactly the interface the spec states. -/
def build_permutation_table (seed size : ℕ) (extended : Bool) : List ℕ :=
  let base := (List.range size).map (fun i => (i + seed) % size)
  if extended then base ++ base else base

/-- Embeds `struct StaticPermutationTable` (simplex.rs lines 4–8).  The
`std::sync::Once` field is modelled by its single-threaded observable state:
whether `call_once` has already run its closure. -/
structure StaticPermutationTable where
  table : Option (List ℕ)
  seed : Option ℕ
  syncDone : Bool
deriving DecidableEq, Repr

/-- The initial value of `static mut PERMUTATION_TABLE`
(simplex.rs lines 10–14): no table, no seed, a fresh `Once`. -/
def initPermutationTable : StaticPermutationTable :=
  { table := none, seed := none, syncDone := false }

/-- Embeds `get_permutation_table` (simplex.rs lines 169–184) as a state
transformer: reset the `Once` if a seed is cached and differs from the
requested one, run the `call_once` closure (store seed, build table) if the
`Once` has not completed, then return the `table` field; `none` in the first
component models a panic of the final `unwrap`. -/
def get_permutation_table (seed : ℕ) (st : StaticPermutationTable) :
    Option (List ℕ) × StaticPermutationTable :=
  let st1 :=
    if (match st.seed with
        | some old_seed => old_seed ≠ seed
        | none => false : Bool) then
      { st with syncDone := false }
    else st
  let st2 :=
    if st1.syncDone then st1
    else
      { table := some (build_permutation_table seed PERMUTATION_TABLE_SIZE true),
        seed := some seed,
        syncDone := true }
  (st2.table, st2)

/-- Embeds `hash1d` (simplex.rs lines 119–122) applied to an already-fetched
permutation table: `*perm.get_unchecked(i)`. -/
def hash1d_lookup (perm : List ℕ) (i : ℕ) : ℕ :=
  perm.getD i 0

/-- Embeds `hash2d` (simplex.rs lines 124–127) applied to an already-fetched
permutation table: `*perm.get_unchecked(i + perm.get_unchecked(j))`. -/
def hash2d_lookup (perm : List ℕ) (i j : ℕ) : ℕ :=
  perm.getD (i + perm.getD j 0) 0

/-- Embeds `hash3d` (simplex.rs lines 129–132) applied to an already-fetched
permutation table:
`*perm.get_unchecked(i + perm.get_unchecked(j + perm.get_unchecked(k)))`. -/
def hash3d_lookup (perm : List ℕ) (i j k : ℕ) : ℕ :=
  perm.getD (i + perm.getD (j + perm.getD k 0) 0) 0

/-- The table positions read by `hash1d` for coordinate `i`. -/
def hash1d_indices (i : ℕ) : List ℕ := [i]

/-- The table positions read by `hash2d` for coordinates `(i, j)`, innermost
first: `j`, then `i + perm[j]`. -/
def hash2d_indices (perm : List ℕ) (i j : ℕ) : List ℕ :=
  [j, i + perm.getD j 0]

/-- The table positions read by `hash3d` for coordinates `(i, j, k)`,
innermost first: `k`, then `j + perm[k]`, then `i + perm[j + perm[k]]`. -/
def hash3d_indices (perm : List ℕ) (i j k : ℕ) : List ℕ :=
  [k, j + perm.getD k 0, i + perm.getD (j + perm.getD k 0) 0]

/-- `hash1d` (simplex.rs lines 119–122) as a state transformer: fetch the
cached table for `seed`, then index it. -/
def hash1d (seed : ℕ) (i : ℕ) (st : StaticPermutationTable) :
    Option ℕ × StaticPermutationTable :=
  let fetched := get_permutation_table seed st
  (fetched.1.map (fun perm => hash1d_lookup perm i), fetched.2)

/-- `hash2d` (simplex.rs lines 124–127) as a state transformer. -/
def hash2d (seed : ℕ) (i j : ℕ) (st : StaticPermutationTable) :
    Option ℕ × StaticPermutationTable :=
  let fetched := get_permutation_table seed st
  (fetched.1.map (fun perm => hash2d_lookup perm i j), fetched.2)

/-- `hash3d` (simplex.rs lines 129–132) as a state transformer. -/
def hash3d (seed : ℕ) (i j k : ℕ) (st : StaticPermutationTable) :
    Option ℕ × StaticPermutationTable :=
  let fetched := get_permutation_table seed st
  (fetched.1.map (fun perm => hash3d_lookup perm i j k), fetched.2)

/-- Embeds `contribution1d` (simplex.rs lines 134–142): zero when
`x.abs() >= FRAC_1_SQRT_2`, else `((R² − x²)²)² * GRADIENT_LUT_1D[gi] * x`. -/
def contribution1d (x : ℚ) (gi : ℕ) : ℚ :=
  if FRAC_1_SQRT_2 ≤ |x| then 0
  else
    let t := R_SQUARED - x * x
    let t2 := t * t
    t2 * t2 * GRADIENT_LUT_1D.getD gi 0 * x

/-- Embeds `contribution2d` (simplex.rs lines 144–153): zero when
`t = R² − x² − y² ≤ 0`, else `(t²)² * (g[0]*x + g[1]*y)`. -/
def contribution2d (x y : ℚ) (gi : ℕ) : ℚ :=
  let t := R_SQUARED - x * x - y * y
  if t ≤ 0 then 0
  else
    let gradient := GRADIENT_LUT_2D.getD gi []
    let t2 := t * t
    t2 * t2 * (gradient.getD 0 0 * x + gradient.getD 1 0 * y)

/-- Embeds `contribution3d` (simplex.rs lines 155–167): zero when
`t = R² − x² − y² − z² ≤ 0`, else `(t²)² * (g[0]*x + g[1]*y + g[2]*z)`. -/
def contribution3d (x y z : ℚ) (gi : ℕ) : ℚ :=
  let t := R_SQUARED - x * x - y * y - z * z
  if t ≤ 0 then 0
  else
    let gradient := GRADIENT_LUT_3D.getD gi []
    let t2 := t * t
    t2 * t2 *
      (gradient.getD 0 0 * x + gradient.getD 1 0 * y + gradient.getD 2 0 * z)

/-- `noise1d` line 18: the cube origin `i0 = fast_floor(x)` (still an `f64`). -/
def noise1d_i0_f (x : ℚ) : ℚ := fast_floor x

/-- `noise1d` line 23: the lattice coordinate passed to the gradient hash,
`i0 as usize % PERMUTATION_TABLE_SIZE`. -/
def noise1d_i0 (x : ℚ) : ℕ :=
  rustCastF64ToUsize (noise1d_i0_f x) % PERMUTATION_TABLE_SIZE

/-- Embeds `noise1d` (simplex.rs lines 16–31) as a state transformer; `none`
models a panic inside the permutation-table unwrap. -/
def noise1d (seed : ℕ) (x : ℚ) (st : StaticPermutationTable) :
    Option ℚ × StaticPermutationTable :=
  let i0_f := noise1d_i0_f x
  let x0 := x - i0_f
  let x1 := x0 - 1
  let i0 := noise1d_i0 x
  let h0 := hash1d seed i0 st
  let h1 := hash1d seed (i0 + 1) h0.2
  match h0.1, h1.1 with
  | some v0, some v1 =>
      let gi0 := v0 % GRADIENT_LUT_1D_SIZE
      let gi1 := v1 % GRADIENT_LUT_1D_SIZE
      let n0 := contribution1d x0 gi0
      let n1 := contribution1d x1 gi1
      (some ((n0 + n1) * NORMALIZATION_FACTOR_1D), h1.2)
  | _, _ => (none, h1.2)

/-- `noise2d` lines 35–36: the skewed, floored first lattice coordinate
`is = fast_floor(x + (x + y) * SKEW_FACTOR_2D)` (still an `f64`). -/
def noise2d_is_f (x y : ℚ) : ℚ := fast_floor (x + (x + y) * SKEW_FACTOR_2D)

/-- `noise2d` lines 35–37: the skewed, floored second lattice coordinate. -/
def noise2d_js_f (x y : ℚ) : ℚ := fast_floor (y + (x + y) * SKEW_FACTOR_2D)

/-- `noise2d` lines 39–40: position of the input relative to the unskewed
cube origin, first component. -/
def noise2d_x0 (x y : ℚ) : ℚ :=
  x - noise2d_is_f x y + (noise2d_is_f x y + noise2d_js_f x y) * UNSKEW_FACTOR_2D

/-- `noise2d` lines 39–41: position of the input relative to the unskewed
cube origin, second component. -/
def noise2d_y0 (x y : ℚ) : ℚ :=
  y - noise2d_js_f x y + (noise2d_is_f x y + noise2d_js_f x y) * UNSKEW_FACTOR_2D

/-- `noise2d` lines 43–48: the middle simplex corner.  The source initializes
`(i1, j1) = (1, 0)` and overwrites it with `(0, 1)` when `x0 < y0`. -/
def noise2d_i1j1 (x0 y0 : ℚ) : ℕ × ℕ :=
  if x0 < y0 then (0, 1) else (1, 0)

/-- `noise2d` line 55: the reduced lattice coordinate
`is as usize % PERMUTATION_TABLE_SIZE`. -/
def noise2d_is (x y : ℚ) : ℕ :=
  rustCastF64ToUsize (noise2d_is_f x y) % PERMUTATION_TABLE_SIZE

/-- `noise2d` line 56: the reduced lattice coordinate
`js as usize % PERMUTATION_TABLE_SIZE`. -/
def noise2d_js (x y : ℚ) : ℕ :=
  rustCastF64ToUsize (noise2d_js_f x y) % PERMUTATION_TABLE_SIZE

/-- Embeds `noise2d` (simplex.rs lines 33–66) as a state transformer. -/
def noise2d (seed : ℕ) (x y : ℚ) (st : StaticPermutationTable) :
    Option ℚ × StaticPermutationTable :=
  let x0 := noise2d_x0 x y
  let y0 := noise2d_y0 x y
  let c1 := noise2d_i1j1 x0 y0
  let i1 := c1.1
  let j1 := c1.2
  let x1 := x0 - (i1 : ℚ) + UNSKEW_FACTOR_2D
  let y1 := y0 - (j1 : ℚ) + UNSKEW_FACTOR_2D
  let x2 := x0 - 1 + 2 * UNSKEW_FACTOR_2D
  let y2 := y0 - 1 + 2 * UNSKEW_FACTOR_2D
  let is := noise2d_is x y
  let js := noise2d_js x y
  let h0 := hash2d seed is js st
  let h1 := hash2d seed (is + i1) (js + j1) h0.2
  let h2 := hash2d seed (is + 1) (js + 1) h1.2
  match h0.1, h1.1, h2.1 with
  | some v0, some v1, some v2 =>
      let n0 := contribution2d x0 y0 (v0 % GRADIENT_LUT_2D_SIZE)
      let n1 := contribution2d x1 y1 (v1 % GRADIENT_LUT_2D_SIZE)
      let n2 := contribution2d x2 y2 (v2 % GRADIENT_LUT_2D_SIZE)
      (some ((n0 + n1 + n2) * NORMALIZATION_FACTOR_2D), h2.2)
  | _, _, _ => (none, h2.2)

/-- `noise3d` lines 70–71: the skewed, floored lattice coordinate
`is = fast_floor(x + (x + y + z) * SKEW_FACTOR_3D)` (still an `f64`). -/
def noise3d_is_f (x y z : ℚ) : ℚ := fast_floor (x + (x + y + z) * SKEW_FACTOR_3D)

/-- `noise3d` lines 70–72: the skewed, floored lattice coordinate `js`. -/
def noise3d_js_f (x y z : ℚ) : ℚ := fast_floor (y + (x + y + z) * SKEW_FACTOR_3D)

/-- `noise3d` lines 70–73: the skewed, floored lattice coordinate `ks`. -/
def noise3d_ks_f (x y z : ℚ) : ℚ := fast_floor (z + (x + y + z) * SKEW_FACTOR_3D)

/-- `noise3d` lines 75–76: position relative to the unskewed cube origin,
first component. -/
def noise3d_x0 (x y z : ℚ) : ℚ :=
  x - noise3d_is_f x y z +
    (noise3d_is_f x y z + noise3d_js_f x y z + noise3d_ks_f x y z) * UNSKEW_FACTOR_3D

/-- `noise3d` lines 75–77: position relative to the unskewed cube origin,
second component. -/
def noise3d_y0 (x y z : ℚ) : ℚ :=
  y - noise3d_js_f x y z +
    (noise3d_is_f x y z + noise3d_js_f x y z + noise3d_ks_f x y z) * UNSKEW_FACTOR_3D

/-- `noise3d` lines 75–78: position relative to the unskewed cube origin,
third component. -/
def noise3d_z0 (x y z : ℚ) : ℚ :=
  z - noise3d_ks_f x y z +
    (noise3d_is_f x y z + noise3d_js_f x y z + noise3d_ks_f x y z) * UNSKEW_FACTOR_3D

/-- `noise3d` line 80: the 3-bit comparison code
`(x0 > y0) as usize * 4 + (y0 > z0) as usize * 2 + (x0 > z0) as usize`. -/
def noise3d_idx (x y z : ℚ) : ℕ :=
  (if noise3d_x0 x y z > noise3d_y0 x y z then 1 else 0) * 4 +
    (if noise3d_y0 x y z > noise3d_z0 x y z then 1 else 0) * 2 +
    (if noise3d_x0 x y z > noise3d_z0 x y z then 1 else 0)

/-- `noise3d` lines 81–83: the first intermediate corner `(i1, j1, k1)`,
fields 0–2 of the traversal-table row. -/
def noise3d_corner1 (x y z : ℚ) : ℕ × ℕ × ℕ :=
  let row := SIMPLEX_TRAVERSAL_LUT_3D.getD (noise3d_idx x y z) []
  (row.getD 0 0, row.getD 1 0, row.getD 2 0)

/-- `noise3d` lines 84–86: the second intermediate corner `(i2, j2, k2)`,
fields 3–5 of the traversal-table row. -/
def noise3d_corner2 (x y z : ℚ) : ℕ × ℕ × ℕ :=
  let row := SIMPLEX_TRAVERSAL_LUT_3D.getD (noise3d_idx x y z) []
  (row.getD 3 0, row.getD 4 0, row.getD 5 0)

/-- `noise3d` lines 88–90: position relative to the first intermediate
corner (one unskew increment). -/
def noise3d_rel1 (x y z : ℚ) : ℚ × ℚ × ℚ :=
  let c := noise3d_corner1 x y z
  (noise3d_x0 x y z - (c.1 : ℚ) + UNSKEW_FACTOR_3D,
   noise3d_y0 x y z - (c.2.1 : ℚ) + UNSKEW_FACTOR_3D,
   noise3d_z0 x y z - (c.2.2 : ℚ) + UNSKEW_FACTOR_3D)

/-- `noise3d` lines 91–93: position relative to the second intermediate
corner (two unskew increments). -/
def noise3d_rel2 (x y z : ℚ) : ℚ × ℚ × ℚ :=
  let c := noise3d_corner2 x y z
  (noise3d_x0 x y z - (c.1 : ℚ) + 2 * UNSKEW_FACTOR_3D,
   noise3d_y0 x y z - (c.2.1 : ℚ) + 2 * UNSKEW_FACTOR_3D,
   noise3d_z0 x y z - (c.2.2 : ℚ) + 2 * UNSKEW_FACTOR_3D)

/-- `noise3d` lines 94–96: position relative to the far corner
(three unskew increments). -/
def noise3d_rel3 (x y z : ℚ) : ℚ × ℚ × ℚ :=
  (noise3d_x0 x y z - 1 + 3 * UNSKEW_FACTOR_3D,
   noise3d_y0 x y z - 1 + 3 * UNSKEW_FACTOR_3D,
   noise3d_z0 x y z - 1 + 3 * UNSKEW_FACTOR_3D)

/-- `noise3d` lines 98–100: the reduced lattice coordinates
`is/js/ks as usize % PERMUTATION_TABLE_SIZE`. -/
def noise3d_isjsks (x y z : ℚ) : ℕ × ℕ × ℕ :=
  (rustCastF64ToUsize (noise3d_is_f x y z) % PERMUTATION_TABLE_SIZE,
   rustCastF64ToUsize (noise3d_js_f x y z) % PERMUTATION_TABLE_SIZE,
   rustCastF64ToUsize (noise3d_ks_f x y z) % PERMUTATION_TABLE_SIZE)

/-- `noise3d` line 101: lattice point hashed for the first corner. -/
def noise3d_gi0_args (x y z : ℚ) : ℕ × ℕ × ℕ := noise3d_isjsks x y z

/-- `noise3d` line 102: lattice point hashed for the second corner. -/
def noise3d_gi1_args (x y z : ℚ) : ℕ × ℕ × ℕ :=
  let b := noise3d_isjsks x y z
  let c := noise3d_corner1 x y z
  (b.1 + c.1, b.2.1 + c.2.1, b.2.2 + c.2.2)

/-- `noise3d` line 103: lattice point hashed for the third corner. -/
def noise3d_gi2_args (x y z : ℚ) : ℕ × ℕ × ℕ :=
  let b := noise3d_isjsks x y z
  let c := noise3d_corner2 x y z
  (b.1 + c.1, b.2.1 + c.2.1, b.2.2 + c.2.2)

/-- `noise3d` line 104: lattice point hashed for the fourth corner. -/
def noise3d_gi3_args (x y z : ℚ) : ℕ × ℕ × ℕ :=
  let b := noise3d_isjsks x y z
  (b.1 + 1, b.2.1 + 1, b.2.2 + 1)

/-- Embeds `noise3d` (simplex.rs lines 68–112) as a state transformer. -/
def noise3d (seed : ℕ) (x y z : ℚ) (st : StaticPermutationTable) :
    Option ℚ × StaticPermutationTable :=
  let a0 := noise3d_gi0_args x y z
  let a1 := noise3d_gi1_args x y z
  let a2 := noise3d_gi2_args x y z
  let a3 := noise3d_gi3_args x y z
  let h0 := hash3d seed a0.1 a0.2.1 a0.2.2 st
  let h1 := hash3d seed a1.1 a1.2.1 a1.2.2 h0.2
  let h2 := hash3d seed a2.1 a2.2.1 a2.2.2 h1.2
  let h3 := hash3d seed a3.1 a3.2.1 a3.2.2 h2.2
  match h0.1, h1.1, h2.1, h3.1 with
  | some v0, some v1, some v2, some v3 =>
      let r1 := noise3d_rel1 x y z
      let r2 := noise3d_rel2 x y z
      let r3 := noise3d_rel3 x y z
      let n0 :=
        contribution3d (noise3d_x0 x y z) (noise3d_y0 x y z) (noise3d_z0 x y z)
          (v0 % GRADIENT_LUT_3D_SIZE)
      let n1 := contribution3d r1.1 r1.2.1 r1.2.2 (v1 % GRADIENT_LUT_3D_SIZE)
      let n2 := contribution3d r2.1 r2.2.1 r2.2.2 (v2 % GRADIENT_LUT_3D_SIZE)
      let n3 := contribution3d r3.1 r3.2.1 r3.2.2 (v3 % GRADIENT_LUT_3D_SIZE)
      (some ((n0 + n1 + n2 + n3) * NORMALIZATION_FACTOR_3D), h3.2)
  | _, _, _, _ => (none, h3.2)

/-- The table the cache builds for `seed`: the source always requests
`build_permutation_table(seed, PERMUTATION_TABLE_SIZE, true)` (line 180). -/
def permTableOf (seed : ℕ) : List ℕ :=
  build_permutation_table seed PERMUTATION_TABLE_SIZE true

/-- The cache state after a completed build for `seed`. -/
def builtState (seed : ℕ) : StaticPermutationTable :=
  { table := some (permTableOf seed), seed := some seed, syncDone := true }

/-- The single-threaded cache invariant: whenever the `Once` guard has
completed, the cached seed is present and the cached table is exactly the one
built for that seed.  It holds at process start and is preserved by every
call. -/
def cacheInv (st : StaticPermutationTable) : Prop :=
  st.syncDone = true → ∃ s, st.seed = some s ∧ st.table = some (permTableOf s)

/-- The pure value `noise1d` computes once the cache serves the table for
`seed` (helper for stating determinism). -/
def noise1dValue (seed : ℕ) (x : ℚ) : ℚ :=
  let perm := permTableOf seed
  let x0 := x - noise1d_i0_f x
  let i0 := noise1d_i0 x
  let n0 := contribution1d x0 (hash1d_lookup perm i0 % GRADIENT_LUT_1D_SIZE)
  let n1 := contribution1d (x0 - 1) (hash1d_lookup perm (i0 + 1) % GRADIENT_LUT_1D_SIZE)
  (n0 + n1) * NORMALIZATION_FACTOR_1D

/-- The pure value `noise2d` computes once the cache serves the table for
`seed`. -/
def noise2dValue (seed : ℕ) (x y : ℚ) : ℚ :=
  let perm := permTableOf seed
  let x0 := noise2d_x0 x y
  let y0 := noise2d_y0 x y
  let c1 := noise2d_i1j1 x0 y0
  let is := noise2d_is x y
  let js := noise2d_js x y
  let n0 := contribution2d x0 y0 (hash2d_lookup perm is js % GRADIENT_LUT_2D_SIZE)
  let n1 :=
    contribution2d (x0 - (c1.1 : ℚ) + UNSKEW_FACTOR_2D) (y0 - (c1.2 : ℚ) + UNSKEW_FACTOR_2D)
      (hash2d_lookup perm (is + c1.1) (js + c1.2) % GRADIENT_LUT_2D_SIZE)
  let n2 :=
    contribution2d (x0 - 1 + 2 * UNSKEW_FACTOR_2D) (y0 - 1 + 2 * UNSKEW_FACTOR_2D)
      (hash2d_lookup perm (is + 1) (js + 1) % GRADIENT_LUT_2D_SIZE)
  (n0 + n1 + n2) * NORMALIZATION_FACTOR_2D

/-- The pure value `noise3d` computes once the cache serves the table for
`seed`. -/
def noise3dValue (seed : ℕ) (x y z : ℚ) : ℚ :=
  let perm := permTableOf seed
  let a0 := noise3d_gi0_args x y z
  let a1 := noise3d_gi1_args x y z
  let a2 := noise3d_gi2_args x y z
  let a3 := noise3d_gi3_args x y z
  let r1 := noise3d_rel1 x y z
  let r2 := noise3d_rel2 x y z
  let r3 := noise3d_rel3 x y z
  let n0 :=
    contribution3d (noise3d_x0 x y z) (noise3d_y0 x y z) (noise3d_z0 x y z)
      (hash3d_lookup perm a0.1 a0.2.1 a0.2.2 % GRADIENT_LUT_3D_SIZE)
  let n1 :=
    contribution3d r1.1 r1.2.1 r1.2.2
      (hash3d_lookup perm a1.1 a1.2.1 a1.2.2 % GRADIENT_LUT_3D_SIZE)
  let n2 :=
    contribution3d r2.1 r2.2.1 r2.2.2
      (hash3d_lookup perm a2.1 a2.2.1 a2.2.2 % GRADIENT_LUT_3D_SIZE)
  let n3 :=
    contribution3d r3.1 r3.2.1 r3.2.2
      (hash3d_lookup perm a3.1 a3.2.1 a3.2.2 % GRADIENT_LUT_3D_SIZE)
  (n0 + n1 + n2 + n3) * NORMALIZATION_FACTOR_3D

/-- One observable call of the public surface (or of the internal cache
accessor), viewed as a transition on the process-wide cache state. -/
inductive CacheStep : StaticPermutationTable → StaticPermutationTable → Prop
  | get (seed : ℕ) (st : StaticPermutationTable) :
      CacheStep st (get_permutation_table seed st).2
  | call1d (seed : ℕ) (x : ℚ) (st : StaticPermutationTable) :
      CacheStep st (noise1d seed x st).2
  | call2d (seed : ℕ) (x y : ℚ) (st : StaticPermutationTable) :
      CacheStep st (noise2d seed x y st).2
  | call3d (seed : ℕ) (x y z : ℚ) (st : StaticPermutationTable) :
      CacheStep st (noise3d seed x y z st).2

/-- A cache state arising in some single-threaded execution: reachable from
the process-start state by a sequence of calls. -/
def ReachableCache (st : StaticPermutationTable) : Prop :=
  Relation.ReflTransGen CacheStep initPermutationTable st

/-! ## Helper lemmas about the permutation-table cache -/

theorem cacheInv_init : cacheInv initPermutationTable := by
  intro h
  simp [initPermutationTable] at h

theorem cacheInv_builtState (seed : ℕ) : cacheInv (builtState seed) := by
  intro _
  exact ⟨seed, rfl, rfl⟩

theorem get_permutation_table_run (seed : ℕ) (st : StaticPermutationTable)
    (h : cacheInv st) :
    get_permutation_table seed st = (some (permTableOf seed), builtState seed) := by
  obtain ⟨tab, sd, dn⟩ := st
  cases sd with
  | none =>
      cases dn with
      | false => simp [get_permutation_table, builtState, permTableOf]
      | true =>
          obtain ⟨s, hs, -⟩ := h rfl
          exact absurd hs (by simp)
  | some old =>
      by_cases hos : old = seed
      · subst hos
        cases dn with
        | false => simp [get_permutation_table, builtState, permTableOf]
        | true =>
            obtain ⟨s, hs, htab⟩ := h rfl
            obtain rfl : old = s := by simpa using hs
            simp_all [get_permutation_table, builtState]
      · cases dn with
        | false => simp [get_permutation_table, hos, builtState, permTableOf]
        | true => simp [get_permutation_table, hos, builtState, permTableOf]

theorem hash1d_run (seed i : ℕ) (st : StaticPermutationTable) (h : cacheInv st) :
    hash1d seed i st = (some (hash1d_lookup (permTableOf seed) i), builtState seed) := by
  simp [hash1d, get_permutation_table_run seed st h]

theorem hash2d_run (seed i j : ℕ) (st : StaticPermutationTable) (h : cacheInv st) :
    hash2d seed i j st = (some (hash2d_lookup (permTableOf seed) i j), builtState seed) := by
  simp [hash2d, get_permutation_table_run seed st h]

theorem hash3d_run (seed i j k : ℕ) (st : StaticPermutationTable) (h : cacheInv st) :
    hash3d seed i j k st = (some (hash3d_lookup (permTableOf seed) i j k), builtState seed) := by
  simp [hash3d, get_permutation_table_run seed st h]

theorem noise1d_run (seed : ℕ) (x : ℚ) (st : StaticPermutationTable)
    (h : cacheInv st) :
    noise1d seed x st = (some (noise1dValue seed x), builtState seed) := by
  simp [noise1d, hash1d_run _ _ _ h, hash1d_run _ _ _ (cacheInv_builtState seed),
    noise1dValue]

theorem noise2d_run (seed : ℕ) (x y : ℚ) (st : StaticPermutationTable)
    (h : cacheInv st) :
    noise2d seed x y st = (some (noise2dValue seed x y), builtState seed) := by
  simp [noise2d, hash2d_run _ _ _ _ h, hash2d_run _ _ _ _ (cacheInv_builtState seed),
    noise2dValue]

theorem noise3d_run (seed : ℕ) (x y z : ℚ) (st : StaticPermutationTable)
    (h : cacheInv st) :
    noise3d seed x y z st = (some (noise3dValue seed x y z), builtState seed) := by
  simp [noise3d, hash3d_run _ _ _ _ _ h, hash3d_run _ _ _ _ _ (cacheInv_builtState seed),
    noise3dValue]

theorem cacheInv_step {st st' : StaticPermutationTable}
    (hstep : CacheStep st st') (h : cacheInv st) : cacheInv st' := by
  cases hstep with
  | get seed _ =>
      simp only [get_permutation_table_run seed _ h]
      exact cacheInv_builtState seed
  | call1d seed x _ =>
      simp only [noise1d_run seed x _ h]
      exact cacheInv_builtState seed
  | call2d seed x y _ =>
      simp only [noise2d_run seed x y _ h]
      exact cacheInv_builtState seed
  | call3d seed x y z _ =>
      simp only [noise3d_run seed x y z _ h]
      exact cacheInv_builtState seed

theorem cacheInv_of_reachable {st : StaticPermutationTable}
    (h : ReachableCache st) : cacheInv st := by
  induction h with
  | refl => exact cacheInv_init
  | tail _ hstep ih => exact cacheInv_step hstep ih

theorem reachable_init : ReachableCache initPermutationTable :=
  Relation.ReflTransGen.refl

theorem reachable_builtState (seed : ℕ) : ReachableCache (builtState seed) := by
  have h := CacheStep.get seed initPermutationTable
  rw [get_permutation_table_run seed _ cacheInv_init] at h
  exact Relation.ReflTransGen.single h

/-! ## Claim theorems -/

/-- **C1**: in every single-threaded execution, `get_permutation_table seed`
returns exactly the table `build_permutation_table seed PERMUTATION_TABLE_SIZE
true` for the seed of that call — the first call, or a call with a seed
differing from the cached one, rebuilds for the new seed, and requesting the
same seed again, even interleaved with other seeds, reproduces the same table
(the state stays reachable, so the property holds for all later calls too). -/
theorem c1_cache_single_slot_correct (seed : ℕ) (st : StaticPermutationTable)
    (h : ReachableCache st) :
    (get_permutation_table seed st).1 =
      some (build_permutation_table seed PERMUTATION_TABLE_SIZE true) ∧
    ReachableCache (get_permutation_table seed st).2 := by
  refine ⟨?_, Relation.ReflTransGen.tail h (CacheStep.get seed st)⟩
  rw [get_permutation_table_run seed st (cacheInv_of_reachable h)]
  rfl

/-- Witness for **C1**: the hypothesis holds at the process-start state, and
the first call with seed 3 returns the table built for seed 3. -/
theorem c1_witness :
    ReachableCache initPermutationTable ∧
    ((get_permutation_table 3 initPermutationTable).1 =
        some (build_permutation_table 3 PERMUTATION_TABLE_SIZE true) ∧
      ReachableCache (get_permutation_table 3 initPermutationTable).2) :=
  ⟨Relation.ReflTransGen.refl,
    c1_cache_single_slot_correct 3 initPermutationTable Relation.ReflTransGen.refl⟩

/-- **C8**: for every seed and coordinates, two calls of `noise1d`/`noise2d`/
`noise3d` with the same seed and coordinates yield identical output in any
single-threaded execution, regardless of which other seed/coordinate calls
occurred in between (the two cache states are arbitrary reachable states). -/
theorem c8_noise_deterministic (seed : ℕ) (x y z : ℚ)
    (st1 st2 : StaticPermutationTable)
    (h1 : ReachableCache st1) (h2 : ReachableCache st2) :
    (noise1d seed x st1).1 = (noise1d seed x st2).1 ∧
    (noise2d seed x y st1).1 = (noise2d seed x y st2).1 ∧
    (noise3d seed x y z st1).1 = (noise3d seed x y z st2).1 := by
  have hi1 := cacheInv_of_reachable h1
  have hi2 := cacheInv_of_reachable h2
  rw [noise1d_run seed x st1 hi1, noise1d_run seed x st2 hi2,
    noise2d_run seed x y st1 hi1, noise2d_run seed x y st2 hi2,
    noise3d_run seed x y z st1 hi1, noise3d_run seed x y z st2 hi2]
  exact ⟨rfl, rfl, rfl⟩

/-- Witness for **C8**: the start state and the state left behind by a call
for seed 7 are both reachable, and evaluating with seed 1 in either state
gives the same noise values. -/
theorem c8_witness :
    ReachableCache initPermutationTable ∧ ReachableCache (builtState 7) ∧
    ((noise1d 1 (1/2) initPermutationTable).1 = (noise1d 1 (1/2) (builtState 7)).1 ∧
      (noise2d 1 (1/2) (1/3) initPermutationTable).1 =
        (noise2d 1 (1/2) (1/3) (builtState 7)).1 ∧
      (noise3d 1 (1/2) (1/3) (1/5) initPermutationTable).1 =
        (noise3d 1 (1/2) (1/3) (1/5) (builtState 7)).1) :=
  ⟨Relation.ReflTransGen.refl, reachable_builtState 7,
    c8_noise_deterministic 1 (1/2) (1/3) (1/5) initPermutationTable (builtState 7)
      Relation.ReflTransGen.refl (reachable_builtState 7)⟩

/-- **C10**: in every single-threaded execution, after the `call_once` block
has run the cached `table` field holds `some` value, so the final `unwrap`
never panics (modelled: `get_permutation_table` never returns `none`) and
every call of `noise1d`/`noise2d`/`noise3d` with any seed returns a value. -/
theorem c10_unwrap_never_panics (seed : ℕ) (x y z : ℚ)
    (st : StaticPermutationTable) (h : ReachableCache st) :
    ((get_permutation_table seed st).2.table).isSome ∧
    ((get_permutation_table seed st).1).isSome ∧
    ((noise1d seed x st).1).isSome ∧
    ((noise2d seed x y st).1).isSome ∧
    ((noise3d seed x y z st).1).isSome := by
  have hinv := cacheInv_of_reachable h
  rw [get_permutation_table_run seed st hinv, noise1d_run seed x st hinv,
    noise2d_run seed x y st hinv, noise3d_run seed x y z st hinv]
  simp [builtState]

/-- Witness for **C10**: at the process-start state, the first calls with
seed 5 all return values. -/
theorem c10_witness :
    ReachableCache initPermutationTable ∧
    (((get_permutation_table 5 initPermutationTable).2.table).isSome ∧
      ((get_permutation_table 5 initPermutationTable).1).isSome ∧
      ((noise1d 5 (1/2) initPermutationTable).1).isSome ∧
      ((noise2d 5 (1/2) (1/3) initPermutationTable).1).isSome ∧
      ((noise3d 5 (1/2) (1/3) (1/5) initPermutationTable).1).isSome) :=
  ⟨Relation.ReflTransGen.refl,
    c10_unwrap_never_panics 5 (1/2) (1/3) (1/5) initPermutationTable
      Relation.ReflTransGen.refl⟩

theorem getD_lt_of_forall_lt {perm : List ℕ} {m n : ℕ}
    (hmem : ∀ v ∈ perm, v < m) (hn : n < perm.length) :
    perm.getD n 0 < m := by
  rw [List.getD_eq_getElem?_getD, List.getElem?_eq_getElem hn]
  exact hmem _ (List.getElem_mem hn)

/-- **C2**: if the permutation table has length `2 * PERMUTATION_TABLE_SIZE`
and all its entries lie below `PERMUTATION_TABLE_SIZE`, then for a first
coordinate in `[0, size]` and remaining coordinates in `[0, size)` plus an
offset in `{0, 1}` (hence also at most `size`), every table position read by
`hash1d`, `hash2d` and `hash3d` — including the nested
`perm[i + perm[j + perm[k]]]`-style positions — is strictly below
`2 * PERMUTATION_TABLE_SIZE`. -/
theorem c2_hash_indices_in_bounds (perm : List ℕ) (i j k : ℕ)
    (hlen : perm.length = 2 * PERMUTATION_TABLE_SIZE)
    (hmem : ∀ v ∈ perm, v < PERMUTATION_TABLE_SIZE)
    (hi : i ≤ PERMUTATION_TABLE_SIZE) (hj : j ≤ PERMUTATION_TABLE_SIZE)
    (hk : k ≤ PERMUTATION_TABLE_SIZE) :
    ∀ n ∈ hash1d_indices i ++ hash2d_indices perm i j ++ hash3d_indices perm i j k,
      n < 2 * PERMUTATION_TABLE_SIZE := by
  have hS : PERMUTATION_TABLE_SIZE = 256 := rfl
  have hpj : perm.getD j 0 < PERMUTATION_TABLE_SIZE :=
    getD_lt_of_forall_lt hmem (by omega)
  have hpk : perm.getD k 0 < PERMUTATION_TABLE_SIZE :=
    getD_lt_of_forall_lt hmem (by omega)
  have hpjk : perm.getD (j + perm.getD k 0) 0 < PERMUTATION_TABLE_SIZE :=
    getD_lt_of_forall_lt hmem (by omega)
  intro n hn
  simp only [hash1d_indices, hash2d_indices, hash3d_indices, List.mem_append,
    List.mem_cons, List.mem_singleton, List.not_mem_nil, or_false] at hn
  rcases hn with (rfl | (rfl | rfl)) | (rfl | rfl | rfl) <;> omega

/-- Witness for **C2**: the hypotheses hold for the all-zero table of length
512 with all three coordinates at the boundary value 256, and every read
position stays below 512. -/
theorem c2_witness :
    (List.replicate 512 0).length = 2 * PERMUTATION_TABLE_SIZE ∧
    (∀ v ∈ List.replicate 512 0, v < PERMUTATION_TABLE_SIZE) ∧
    256 ≤ PERMUTATION_TABLE_SIZE ∧
    (∀ n ∈ hash1d_indices 256 ++ hash2d_indices (List.replicate 512 0) 256 256 ++
        hash3d_indices (List.replicate 512 0) 256 256 256,
      n < 2 * PERMUTATION_TABLE_SIZE) :=
  ⟨by rw [List.length_replicate]; rfl,
    fun v hv => by rw [List.eq_of_mem_replicate hv]; decide,
    by decide,
    c2_hash_indices_in_bounds (List.replicate 512 0) 256 256 256
      (by rw [List.length_replicate]; rfl)
      (fun v hv => by rw [List.eq_of_mem_replicate hv]; decide)
      (by decide) (by decide)
      (by decide)⟩

/-- **C4**: in `noise2d`, for every input, the middle simplex corner
`(i1, j1)` equals `(0, 1)` exactly when `x0 < y0` and equals `(1, 0)`
otherwise; in particular when `x0 = y0` the `(1, 0)` corner is chosen,
because the comparison is strict less-than. -/
theorem c4_middle_corner_tie_break (x y : ℚ) :
    (noise2d_i1j1 (noise2d_x0 x y) (noise2d_y0 x y) = (0, 1) ↔
      noise2d_x0 x y < noise2d_y0 x y) ∧
    (noise2d_i1j1 (noise2d_x0 x y) (noise2d_y0 x y) = (1, 0) ↔
      ¬ noise2d_x0 x y < noise2d_y0 x y) ∧
    (noise2d_x0 x y = noise2d_y0 x y →
      noise2d_i1j1 (noise2d_x0 x y) (noise2d_y0 x y) = (1, 0)) := by
  unfold noise2d_i1j1
  by_cases hlt : noise2d_x0 x y < noise2d_y0 x y
  · rw [if_pos hlt]
    exact ⟨iff_of_true rfl hlt, iff_of_false (by decide) (not_not_intro hlt),
      fun heq => absurd (heq ▸ hlt) (lt_irrefl _)⟩
  · rw [if_neg hlt]
    exact ⟨iff_of_false (by decide) hlt, iff_of_true rfl hlt, fun _ => rfl⟩

/-- Witness for **C4**: at the input `(0, 0)` the relative coordinates tie,
and the `(1, 0)` corner is chosen. -/
theorem c4_witness :
    noise2d_x0 0 0 = noise2d_y0 0 0 ∧
    noise2d_i1j1 (noise2d_x0 0 0) (noise2d_y0 0 0) = (1, 0) :=
  ⟨by norm_num [noise2d_x0, noise2d_y0, noise2d_is_f, noise2d_js_f, fast_floor,
      rustCastF64ToI64, truncQ],
    (c4_middle_corner_tie_break 0 0).2.2
      (by norm_num [noise2d_x0, noise2d_y0, noise2d_is_f, noise2d_js_f, fast_floor,
        rustCastF64ToI64, truncQ])⟩

/-- **C5**: in `noise3d`, for every input, the two intermediate simplex
corners are the six fields of the traversal-table row at index
`4*[x0>y0] + 2*[y0>z0] + [x0>z0]` (strict comparisons), the first hashed
corner is the lattice origin `(is, js, ks)`, the fourth is the far corner
`(is+1, js+1, ks+1)`, and the relative positions of the second, third and
fourth corners carry one, two and three unskew-constant increments. -/
theorem c5_traversal_structure (x y z : ℚ) :
    noise3d_idx x y z =
      4 * (if noise3d_x0 x y z > noise3d_y0 x y z then 1 else 0) +
        2 * (if noise3d_y0 x y z > noise3d_z0 x y z then 1 else 0) +
        (if noise3d_x0 x y z > noise3d_z0 x y z then 1 else 0) ∧
    noise3d_corner1 x y z =
      ((SIMPLEX_TRAVERSAL_LUT_3D.getD (noise3d_idx x y z) []).getD 0 0,
        (SIMPLEX_TRAVERSAL_LUT_3D.getD (noise3d_idx x y z) []).getD 1 0,
        (SIMPLEX_TRAVERSAL_LUT_3D.getD (noise3d_idx x y z) []).getD 2 0) ∧
    noise3d_corner2 x y z =
      ((SIMPLEX_TRAVERSAL_LUT_3D.getD (noise3d_idx x y z) []).getD 3 0,
        (SIMPLEX_TRAVERSAL_LUT_3D.getD (noise3d_idx x y z) []).getD 4 0,
        (SIMPLEX_TRAVERSAL_LUT_3D.getD (noise3d_idx x y z) []).getD 5 0) ∧
    noise3d_gi0_args x y z = noise3d_isjsks x y z ∧
    noise3d_gi1_args x y z =
      ((noise3d_isjsks x y z).1 + (noise3d_corner1 x y z).1,
        (noise3d_isjsks x y z).2.1 + (noise3d_corner1 x y z).2.1,
        (noise3d_isjsks x y z).2.2 + (noise3d_corner1 x y z).2.2) ∧
    noise3d_gi2_args x y z =
      ((noise3d_isjsks x y z).1 + (noise3d_corner2 x y z).1,
        (noise3d_isjsks x y z).2.1 + (noise3d_corner2 x y z).2.1,
        (noise3d_isjsks x y z).2.2 + (noise3d_corner2 x y z).2.2) ∧
    noise3d_gi3_args x y z =
      ((noise3d_isjsks x y z).1 + 1, (noise3d_isjsks x y z).2.1 + 1,
        (noise3d_isjsks x y z).2.2 + 1) ∧
    noise3d_rel1 x y z =
      (noise3d_x0 x y z - ((noise3d_corner1 x y z).1 : ℚ) + UNSKEW_FACTOR_3D,
        noise3d_y0 x y z - ((noise3d_corner1 x y z).2.1 : ℚ) + UNSKEW_FACTOR_3D,
        noise3d_z0 x y z - ((noise3d_corner1 x y z).2.2 : ℚ) + UNSKEW_FACTOR_3D) ∧
    noise3d_rel2 x y z =
      (noise3d_x0 x y z - ((noise3d_corner2 x y z).1 : ℚ) + 2 * UNSKEW_FACTOR_3D,
        noise3d_y0 x y z - ((noise3d_corner2 x y z).2.1 : ℚ) + 2 * UNSKEW_FACTOR_3D,
        noise3d_z0 x y z - ((noise3d_corner2 x y z).2.2 : ℚ) + 2 * UNSKEW_FACTOR_3D) ∧
    noise3d_rel3 x y z =
      (noise3d_x0 x y z - 1 + 3 * UNSKEW_FACTOR_3D,
        noise3d_y0 x y z - 1 + 3 * UNSKEW_FACTOR_3D,
        noise3d_z0 x y z - 1 + 3 * UNSKEW_FACTOR_3D) := by
  refine ⟨?_, rfl, rfl, rfl, rfl, rfl, rfl, rfl, rfl, rfl⟩
  unfold noise3d_idx
  split_ifs <;> decide

/-- **C6**: `contribution2d` and `contribution3d` return exactly 0 when
`t = R² − |p|²` satisfies `t ≤ 0` and otherwise `t⁴` times the dot product of
the looked-up gradient with `p`; `contribution1d` instead returns exactly 0
when the absolute scalar offset is at least the support radius
(`FRAC_1_SQRT_2`), and otherwise `(R² − x²)⁴` times the gradient times `x`. -/
theorem c6_contribution_falloff (x y z : ℚ) (gi : ℕ) :
    contribution1d x gi =
      (if FRAC_1_SQRT_2 ≤ |x| then 0
       else (R_SQUARED - x * x) ^ 4 * GRADIENT_LUT_1D.getD gi 0 * x) ∧
    contribution2d x y gi =
      (if R_SQUARED - (x * x + y * y) ≤ 0 then 0
       else (R_SQUARED - (x * x + y * y)) ^ 4 *
         ((GRADIENT_LUT_2D.getD gi []).getD 0 0 * x +
           (GRADIENT_LUT_2D.getD gi []).getD 1 0 * y)) ∧
    contribution3d x y z gi =
      (if R_SQUARED - (x * x + y * y + z * z) ≤ 0 then 0
       else (R_SQUARED - (x * x + y * y + z * z)) ^ 4 *
         ((GRADIENT_LUT_3D.getD gi []).getD 0 0 * x +
           (GRADIENT_LUT_3D.getD gi []).getD 1 0 * y +
           (GRADIENT_LUT_3D.getD gi []).getD 2 0 * z)) := by
  refine ⟨?_, ?_, ?_⟩
  · simp only [contribution1d]
    split_ifs with h
    · rfl
    · ring
  · simp only [contribution2d]
    rw [show R_SQUARED - x * x - y * y = R_SQUARED - (x * x + y * y) from by ring]
    split_ifs with h
    · rfl
    · ring
  · simp only [contribution3d]
    rw [show R_SQUARED - x * x - y * y - z * z =
        R_SQUARED - (x * x + y * y + z * z) from by ring]
    split_ifs with h
    · rfl
    · ring

theorem fast_floor_eq_floor (x : ℚ) (hlo : -(2 ^ 63) ≤ x) (hhi : x < 2 ^ 63) :
    fast_floor x = (⌊x⌋ : ℚ) := by
  simp only [fast_floor, rustCastF64ToI64]
  by_cases hx : 0 ≤ x
  · simp only [show truncQ x = ⌊x⌋ from if_pos hx]
    have hfl_lt : ⌊x⌋ < 2 ^ 63 := by
      have h1 : (⌊x⌋ : ℚ) < 2 ^ 63 := lt_of_le_of_lt (Int.floor_le x) hhi
      exact_mod_cast h1
    have h0 : (0 : ℤ) ≤ ⌊x⌋ := Int.floor_nonneg.mpr hx
    rw [min_eq_right (by omega), max_eq_right (by omega)]
    rw [if_neg (not_lt.mpr (Int.floor_le x))]
    ring
  · push_neg at hx
    simp only [show truncQ x = ⌈x⌉ from if_neg (not_le.mpr hx)]
    have hc0 : ⌈x⌉ ≤ 0 := Int.ceil_le.mpr (by exact_mod_cast hx.le)
    have hcge : -(2 ^ 63) ≤ ⌈x⌉ := by
      rw [Int.le_ceil_iff]
      push_cast
      linarith
    rw [min_eq_right (by omega), max_eq_right hcge]
    by_cases hlt : x < (⌈x⌉ : ℚ)
    · rw [if_pos hlt]
      have h1 : ⌈x⌉ ≤ ⌊x⌋ + 1 := Int.ceil_le_floor_add_one x
      have h2 : ⌊x⌋ < ⌈x⌉ := by
        have h3 : (⌊x⌋ : ℚ) < (⌈x⌉ : ℚ) := lt_of_le_of_lt (Int.floor_le x) hlt
        exact_mod_cast h3
      have h4 : ⌈x⌉ = ⌊x⌋ + 1 := by omega
      rw [h4]
      push_cast
      ring
    · rw [if_neg hlt]
      push_neg at hlt
      have hx_eq : x = (⌈x⌉ : ℚ) := le_antisymm (Int.le_ceil x) hlt
      conv_rhs => rw [hx_eq, Int.floor_intCast]
      ring

/-- **C7 counterexample**: the finite `f64` value `2⁶³ + 2048` is exactly
representable, but `fast_floor` does not return its floor (which is the value
itself): the `as i64` cast saturates at `i64::MAX`, so the result is far below
the input. -/
theorem c7_counterexample :
    fast_floor ((2 : ℚ) ^ 63 + 2048) ≠ (⌊((2 : ℚ) ^ 63 + 2048)⌋ : ℚ) := by
  norm_num [fast_floor, rustCastF64ToI64, truncQ]

/-- **C7 (amended)**: for every finite `f64` input `x` with
`-2⁶³ ≤ x < 2⁶³` (the range in which the `as i64` truncation does not
saturate), `fast_floor x` equals the mathematical floor of `x`; in particular
for negative non-integer `x` it returns truncation minus 1, not truncation
toward zero. -/
theorem c7_fast_floor_amended (x : ℚ) (hlo : -(2 ^ 63) ≤ x) (hhi : x < 2 ^ 63) :
    fast_floor x = (⌊x⌋ : ℚ) :=
  fast_floor_eq_floor x hlo hhi

/-- Witness for **C7 (amended)**: at `x = -3/2` the bounds hold and
`fast_floor` returns `-2`, the true floor. -/
theorem c7_witness :
    -(2 ^ 63) ≤ (-3/2 : ℚ) ∧ (-3/2 : ℚ) < 2 ^ 63 ∧
    fast_floor (-3/2 : ℚ) = (⌊(-3/2 : ℚ)⌋ : ℚ) :=
  ⟨by norm_num, by norm_num,
    c7_fast_floor_amended (-3/2) (by norm_num) (by norm_num)⟩

theorem fast_floor_exists_int (x : ℚ) :
    ∃ n : ℤ, fast_floor x = (n : ℚ) ∧ n ≤ 2 ^ 63 - 1 := by
  simp only [fast_floor]
  have hmle : rustCastF64ToI64 x ≤ 2 ^ 63 - 1 :=
    max_le (by norm_num) (min_le_left _ _)
  by_cases h : x < ((rustCastF64ToI64 x : ℤ) : ℚ)
  · exact ⟨rustCastF64ToI64 x - 1, by rw [if_pos h]; push_cast; ring, by omega⟩
  · exact ⟨rustCastF64ToI64 x, by rw [if_neg h]; ring, hmle⟩

theorem lattice_reduce_spec (v : ℚ) :
    (0 ≤ fast_floor v →
      ((rustCastF64ToUsize (fast_floor v) % PERMUTATION_TABLE_SIZE : ℕ) : ℤ) =
        ⌊fast_floor v⌋ % (PERMUTATION_TABLE_SIZE : ℤ)) ∧
    (fast_floor v < 0 →
      rustCastF64ToUsize (fast_floor v) % PERMUTATION_TABLE_SIZE = 0) := by
  obtain ⟨n, hn, hle⟩ := fast_floor_exists_int v
  rw [hn]
  constructor
  · intro h0
    have hn0 : (0 : ℤ) ≤ n := by exact_mod_cast h0
    have htr : truncQ (n : ℚ) = n := by
      rw [truncQ, if_pos (by exact_mod_cast hn0), Int.floor_intCast]
    simp only [rustCastF64ToUsize]
    rw [htr, min_eq_right (by omega), max_eq_right hn0, Int.floor_intCast]
    push_cast [Int.toNat_of_nonneg hn0]
    rfl
  · intro hneg
    have hn0 : n < 0 := by exact_mod_cast hneg
    have htr : truncQ (n : ℚ) = n := by
      rw [truncQ, if_neg (by exact_mod_cast not_le.mpr hn0), Int.ceil_intCast]
    simp only [rustCastF64ToUsize]
    rw [htr, min_eq_right (by omega), max_eq_left (by omega)]
    simp

/-- **C3 counterexample**: in `noise1d` at `x = -1/2` the floored lattice
coordinate is `-1`, whose reduction modulo `PERMUTATION_TABLE_SIZE` is 255,
but the coordinate actually passed to the gradient hash is 0: the `as usize`
cast saturates negative floors at 0 instead of reducing them. -/
theorem c3_counterexample :
    ¬ (((noise1d_i0 (-1/2) : ℕ) : ℤ) =
        ⌊noise1d_i0_f (-1/2 : ℚ)⌋ % (PERMUTATION_TABLE_SIZE : ℤ)) := by
  have h1 : noise1d_i0_f (-1/2 : ℚ) = -1 := by
    rw [noise1d_i0_f, fast_floor_eq_floor _ (by norm_num) (by norm_num)]
    norm_num
  have h2 : noise1d_i0 (-1/2 : ℚ) = 0 := by
    rw [noise1d_i0, h1]
    simp only [rustCastF64ToUsize]
    rw [show truncQ (-1 : ℚ) = -1 by
      rw [truncQ, if_neg (by norm_num), Int.ceil_eq_iff]; norm_num]
    rfl
  rw [h1, h2]
  norm_num [PERMUTATION_TABLE_SIZE]

/-- **C3 (amended)**: in `noise1d`, `noise2d` and `noise3d`, the lattice
coordinate passed to the gradient hash equals the floored lattice coordinate
reduced modulo `PERMUTATION_TABLE_SIZE` whenever that floored coordinate is
nonnegative; when it is negative the `as usize` cast saturates, so the
coordinate passed is 0. -/
theorem c3_lattice_reduction_amended (x x2 y2 x3 y3 z3 : ℚ) :
    (0 ≤ noise1d_i0_f x →
      ((noise1d_i0 x : ℕ) : ℤ) = ⌊noise1d_i0_f x⌋ % (PERMUTATION_TABLE_SIZE : ℤ)) ∧
    (noise1d_i0_f x < 0 → noise1d_i0 x = 0) ∧
    (0 ≤ noise2d_is_f x2 y2 →
      ((noise2d_is x2 y2 : ℕ) : ℤ) =
        ⌊noise2d_is_f x2 y2⌋ % (PERMUTATION_TABLE_SIZE : ℤ)) ∧
    (noise2d_is_f x2 y2 < 0 → noise2d_is x2 y2 = 0) ∧
    (0 ≤ noise2d_js_f x2 y2 →
      ((noise2d_js x2 y2 : ℕ) : ℤ) =
        ⌊noise2d_js_f x2 y2⌋ % (PERMUTATION_TABLE_SIZE : ℤ)) ∧
    (noise2d_js_f x2 y2 < 0 → noise2d_js x2 y2 = 0) ∧
    (0 ≤ noise3d_is_f x3 y3 z3 →
      (((noise3d_isjsks x3 y3 z3).1 : ℕ) : ℤ) =
        ⌊noise3d_is_f x3 y3 z3⌋ % (PERMUTATION_TABLE_SIZE : ℤ)) ∧
    (noise3d_is_f x3 y3 z3 < 0 → (noise3d_isjsks x3 y3 z3).1 = 0) ∧
    (0 ≤ noise3d_js_f x3 y3 z3 →
      (((noise3d_isjsks x3 y3 z3).2.1 : ℕ) : ℤ) =
        ⌊noise3d_js_f x3 y3 z3⌋ % (PERMUTATION_TABLE_SIZE : ℤ)) ∧
    (noise3d_js_f x3 y3 z3 < 0 → (noise3d_isjsks x3 y3 z3).2.1 = 0) ∧
    (0 ≤ noise3d_ks_f x3 y3 z3 →
      (((noise3d_isjsks x3 y3 z3).2.2 : ℕ) : ℤ) =
        ⌊noise3d_ks_f x3 y3 z3⌋ % (PERMUTATION_TABLE_SIZE : ℤ)) ∧
    (noise3d_ks_f x3 y3 z3 < 0 → (noise3d_isjsks x3 y3 z3).2.2 = 0) := by
  refine ⟨?_, ?_, ?_, ?_, ?_, ?_, ?_, ?_, ?_, ?_, ?_, ?_⟩ <;>
    first
      | exact (lattice_reduce_spec _).1
      | exact (lattice_reduce_spec _).2

/-- Witness for **C3 (amended)**: at `x = 3/2` the floor is 1 ≥ 0 and the
passed coordinate is `1 % 256`; at `x = -5/2` the floor is negative and the
passed coordinate is 0. -/
theorem c3_witness :
    (0 ≤ noise1d_i0_f (3/2 : ℚ) ∧
      ((noise1d_i0 (3/2 : ℚ) : ℕ) : ℤ) =
        ⌊noise1d_i0_f (3/2 : ℚ)⌋ % (PERMUTATION_TABLE_SIZE : ℤ)) ∧
    (noise1d_i0_f (-5/2 : ℚ) < 0 ∧ noise1d_i0 (-5/2 : ℚ) = 0) :=
  ⟨⟨by rw [noise1d_i0_f, fast_floor_eq_floor _ (by norm_num) (by norm_num)]; norm_num,
      (c3_lattice_reduction_amended (3/2) 0 0 0 0 0).1
        (by rw [noise1d_i0_f, fast_floor_eq_floor _ (by norm_num) (by norm_num)]
            norm_num)⟩,
    ⟨by rw [noise1d_i0_f, fast_floor_eq_floor _ (by norm_num) (by norm_num)]; norm_num,
      (c3_lattice_reduction_amended (-5/2) 0 0 0 0 0).2.1
        (by rw [noise1d_i0_f, fast_floor_eq_floor _ (by norm_num) (by norm_num)]
            norm_num)⟩⟩

end Simplex
